import Mathlib

set_option maxRecDepth 8000

/-
Verification of the Nucloid kernel's memory-management core.

The definitions below are a shallow embedding of the relevant Rust sources,
instantiated for the x86 32-bit (PAE) configuration the specification's
scenarios assume:

  * `src/mem/frame.rs`          — frame allocator and allocation builder
  * `src/mem/highmem.rs`        — high-memory virtual-address allocator
  * `src/mem/kalloc/mod.rs` and `src/mem/kalloc/bump_kalloc.rs`
                                — kernel heap allocator (bump variant, wired up)
  * `src/arch/x86/mem/paging.rs`— page-table entry accessors and walker
  * `src/arch/x86/export/mem.rs`— address constants and `page_permissions`
  * `src/arch/x86/export/sync.rs`— critical-region counter
  * `src/mem/mod.rs`            — `handle_pagefault`
  * `src/misc.rs`               — `align_up`

Machine integers are modelled as `Nat` with explicit wrap-around (`% 2 ^ 32`)
where the source relies on fixed-width arithmetic.  A Rust `panic!` or failed
`assert!` is modelled as `Except.error` carrying the panic message; normal
completion is `Except.ok`.
-/

/-- FRAME_SIZE from `arch/x86/export/mem.rs`: frames are 4096 bytes. -/
def FRAME_SIZE : Nat := 4096

/-- FRAME_SIZE_BITS from `arch/x86/export/mem.rs`. -/
def FRAME_SIZE_BITS : Nat := 12

/-- LOWMEM_SIZE on x86 32-bit: `896 << 20` bytes (896 MiB). -/
def LOWMEM_SIZE : Nat := 896 <<< 20

/-- LOWMEM_VA_START on x86 32-bit: `0xc000_0000`. -/
def LOWMEM_VA_START : Nat := 0xc0000000

/-- PAddr::is_highmem on x86 32-bit: `self.0 >= LOWMEM_SIZE`. -/
def paddr_is_highmem (pa : Nat) : Bool := decide (LOWMEM_SIZE ≤ pa)

/-- align_up from `misc.rs`: `(n + (multiple - 1)) & !(multiple - 1)` with the
bitwise complement taken at the 32-bit word width of the x86 target, so
`!(multiple - 1) = 2^32 - multiple` for the power-of-two multiples used. -/
def align_up (n multiple : Nat) : Nat :=
  (n + (multiple - 1)) &&& (2 ^ 32 - multiple)

/-- FrameState from `mem/frame.rs`. -/
inductive FrameState where
  | Unusable
  | FreeRAM
  | AllocatedRAM
  | UnclaimedReserved
  | ClaimedReserved
deriving DecidableEq, Repr

/-- FrameAllocator from `mem/frame.rs`: the global array of frame
descriptors, one `FrameState` per 4 KiB physical frame. -/
structure FrameAllocator where
  frames : List FrameState
deriving DecidableEq, Repr

/-- FrameAllocator::frame_paddr: `frame_index * FRAME_SIZE`. -/
def frame_paddr (frame_index : Nat) : Nat := frame_index * FRAME_SIZE

/-- FrameAllocator::index_from_paddr: `frame_paddr.0 >> FRAME_SIZE_BITS`. -/
def index_from_paddr (pa : Nat) : Nat := pa >>> FRAME_SIZE_BITS

/-- Outcome of the scan loop inside `FrameAllocator::allocate`:
`abort` models the early `return None` taken on a free high-memory frame
when `can_highmem` is false; `found i` models `free_index = Some(i)` followed
by `break`; `exhausted` models falling off the end of the frame array. -/
inductive ScanOut where
  | abort
  | found (idx : Nat)
  | exhausted
deriving DecidableEq, Repr

/-- The scan loop of `FrameAllocator::allocate` (`mem/frame.rs`, lines
111-129): walk the descriptors with a running count `nr_free` of the current
run of FreeRAM frames, resetting on any non-free frame; abort the whole call
on a free high-memory frame when `can_highmem` is false; record
`i - (nr_free - 1)` when the run reaches `nr_frames`. -/
def alloc_scan (nr_frames : Nat) (can_highmem : Bool) :
    List FrameState → Nat → Nat → ScanOut
  | [], _, _ => ScanOut.exhausted
  | f :: rest, i, nr_free =>
    if f = FrameState.FreeRAM then
      if paddr_is_highmem (frame_paddr i) && !can_highmem then
        ScanOut.abort
      else if nr_free + 1 = nr_frames then
        ScanOut.found (i - (nr_free + 1 - 1))
      else
        alloc_scan nr_frames can_highmem rest (i + 1) (nr_free + 1)
    else
      alloc_scan nr_frames can_highmem rest (i + 1) 0

/-- Helper for `iter_mut().skip(idx).take(n)` writes: overwrite the first
`n` elements of a list with `s`, silently stopping at the end of the list. -/
def set_from : List FrameState → Nat → FrameState → List FrameState
  | [], _, _ => []
  | l, 0, _ => l
  | _ :: rest, n + 1, s => s :: set_from rest n s

/-- Overwrite elements `idx, idx+1, ..., idx+n-1` of `l` with `s`
(the `iter_mut().skip(idx).take(n)` loop of `FrameAllocator::allocate`). -/
def set_range (l : List FrameState) (idx n : Nat) (s : FrameState) :
    List FrameState :=
  l.take idx ++ set_from (l.drop idx) n s

/-- FrameAllocator::allocate (`mem/frame.rs`, lines 106-143).  The returned
pair is (the `Option<PAddr>` result, the allocator state after the call);
the source mutates `self.frames` only in the `if let Some(free_index)`
success branch, after the scan loop. -/
def FrameAllocator.allocate (fa : FrameAllocator) (nr_frames : Nat)
    (can_highmem : Bool) : Option Nat × FrameAllocator :=
  match alloc_scan nr_frames can_highmem fa.frames 0 0 with
  | ScanOut.found free_index =>
      (some (frame_paddr free_index),
       ⟨set_range fa.frames free_index nr_frames FrameState.AllocatedRAM⟩)
  | _ => (none, fa)

/-- FrameAllocator::free (`mem/frame.rs`, lines 172-186).  The source begins
with `assert_eq!(nr_frames, 1, "unimplemented")`, then bounds-checks the
index, then transitions AllocatedRAM → FreeRAM or
ClaimedReserved → UnclaimedReserved, panicking on any other state. -/
def FrameAllocator.free (fa : FrameAllocator) (frame_addr nr_frames : Nat) :
    Except String FrameAllocator :=
  if nr_frames ≠ 1 then Except.error "unimplemented"
  else
    let index := index_from_paddr frame_addr
    if fa.frames.length ≤ index then
      Except.error "Free of out of bound frame"
    else
      match fa.frames.getD index FrameState.Unusable with
      | FrameState.AllocatedRAM =>
          Except.ok ⟨fa.frames.set index FrameState.FreeRAM⟩
      | FrameState.ClaimedReserved =>
          Except.ok ⟨fa.frames.set index FrameState.UnclaimedReserved⟩
      | _ => Except.error "trying to free unallocated frame"

/-- AllocationBuilder from `mem/frame.rs` (the `allocate_frames()` facade). -/
structure AllocationBuilder where
  nr_frames : Nat
  zero : Bool
  can_highmem : Bool
deriving DecidableEq, Repr

/-- allocate_frames() from `mem/frame.rs`: default builder state. -/
def allocate_frames : AllocationBuilder := ⟨1, false, false⟩

/-- Observable outcome of `AllocationBuilder::allocate`: the returned
`Option<PAddr>`, the frame-allocator state after the call, and the list of
(virtual address, byte count) ranges that were filled with zero bytes. -/
structure BuilderOutcome where
  result : Option Nat
  fa : FrameAllocator
  zeroed : List (Nat × Nat)
deriving DecidableEq, Repr

/-- AllocationBuilder::allocate (`mem/frame.rs`, lines 227-253).
`into_vaddr pa n` abstracts `PAddr::into_vaddr(nr_pages)`, the arch facility
that produces a virtual address mapping `n` pages at physical address `pa`
(low-memory offset mapping, or a fresh high-memory mapping which can fail).
When zeroing is requested and no virtual address can be obtained, the source
logs an error, frees the just-allocated frames — and then still falls
through to `Some(paddr)`. -/
def AllocationBuilder.allocate (b : AllocationBuilder)
    (into_vaddr : Nat → Nat → Option Nat) (fa : FrameAllocator) :
    Except String BuilderOutcome :=
  match fa.allocate b.nr_frames b.can_highmem with
  | (none, fa1) => Except.ok ⟨none, fa1, []⟩
  | (some paddr, fa1) =>
    if b.zero then
      match into_vaddr paddr b.nr_frames with
      | some vaddr => Except.ok ⟨some paddr, fa1, [(vaddr, b.nr_frames * 4096)]⟩
      | none =>
        match fa1.free paddr b.nr_frames with
        | Except.error e => Except.error e
        | Except.ok fa2 => Except.ok ⟨some paddr, fa2, []⟩
    else
      Except.ok ⟨some paddr, fa1, []⟩

/-- HighmemAllocator from `mem/highmem.rs`: bitmap over the high-memory
virtual window (`allocated.length = nr_pages` is asserted on construction). -/
structure HighmemAllocator where
  start : Nat
  nr_pages : Nat
  allocated : List Bool
deriving DecidableEq, Repr

/-- Helper for the `iter_mut().skip(idx).take(n)` loop of
`HighmemAllocator::free`: clear the first `n` booleans of a list, silently
stopping at the end of the list. -/
def clear_from : List Bool → Nat → List Bool
  | [], _ => []
  | l, 0 => l
  | _ :: rest, n + 1 => false :: clear_from rest n

/-- Clear bits `idx, ..., idx+n-1` of `l`, silently truncating at the end. -/
def clear_range (l : List Bool) (idx n : Nat) : List Bool :=
  l.take idx ++ clear_from (l.drop idx) n

/-- HighmemAllocator::vaddr_to_index (`mem/highmem.rs`, lines 107-114):
asserts page alignment and `start <= vaddr <= start + (nr_pages << 12)`,
then returns `(vaddr - start) >> 12`. -/
def HighmemAllocator.vaddr_to_index (h : HighmemAllocator) (vaddr : Nat) :
    Except String Nat :=
  if vaddr &&& 0xfff ≠ 0 then Except.error "vaddr must be page-aligned"
  else if ¬(h.start ≤ vaddr ∧ vaddr ≤ h.start + (h.nr_pages <<< 12)) then
    Except.error "vaddr is out of bound"
  else
    Except.ok ((vaddr - h.start) >>> 12)

/-- HighmemAllocator::free (`mem/highmem.rs`, lines 94-105): compute the
start index (its assertions are the only panic sites), then clear `nr_pages`
bits with `iter_mut().skip(start_index).take(nr_pages)`. -/
def HighmemAllocator.free (h : HighmemAllocator) (vaddr nr_pages : Nat) :
    Except String HighmemAllocator :=
  match h.vaddr_to_index vaddr with
  | Except.error e => Except.error e
  | Except.ok start_index =>
      Except.ok { h with allocated := clear_range h.allocated start_index nr_pages }

/-- BumpAllocator from `mem/kalloc/bump_kalloc.rs`. -/
structure BumpAllocator where
  heap_top : Nat
  end_of_page : Bool
deriving DecidableEq, Repr

/-- BumpAllocator::new: `heap_top = 4096`, `end_of_page = false`. -/
def BumpAllocator.new : BumpAllocator := ⟨4096, false⟩

/-- BumpAllocator::alloc (`mem/kalloc/bump_kalloc.rs`, lines 34-55).
`new_pages` abstracts the backend `B::new_pages` (frame allocation mapped to
low memory); it returns the virtual address of the fresh pages or `none`.
`saturating_sub` is ordinary truncated `Nat` subtraction. -/
def BumpAllocator.alloc (a : BumpAllocator) (new_pages : Nat → Option Nat)
    (bsize : Nat) : Option (Nat × BumpAllocator) :=
  let block := align_up a.heap_top 16
  let bytes_left := align_up a.heap_top 4096 - block
  if bytes_left < bsize then
    match new_pages (align_up bsize 4096 >>> 12) with
    | none => none
    | some b => some (b, ⟨b + bsize, a.end_of_page⟩)
  else
    some (block, ⟨block + bsize, a.end_of_page⟩)

/-- BumpAllocator::dealloc (`mem/kalloc/bump_kalloc.rs`, line 57): the body
is empty; the state is unchanged and there is no panic site. -/
def BumpAllocator.dealloc (a : BumpAllocator) (_ptr : Nat) :
    Except String BumpAllocator :=
  Except.ok a

/-- KernelAllocatorWrapper::alloc (`mem/kalloc/mod.rs`, lines 44-57): reject
alignments above 16 with a null pointer (modelled as 0), otherwise defer to
the bump allocator, turning `None` into null. -/
def KernelAllocatorWrapper.alloc (a : BumpAllocator)
    (new_pages : Nat → Option Nat) (size align : Nat) : Nat × BumpAllocator :=
  if 16 < align then (0, a)
  else
    match a.alloc new_pages size with
    | some (p, a1) => (p, a1)
    | none => (0, a)

/-- KernelAllocatorWrapper::dealloc (`mem/kalloc/mod.rs`, lines 59-62):
forwards to `BumpAllocator::dealloc`. -/
def KernelAllocatorWrapper.dealloc (a : BumpAllocator) (ptr : Nat) :
    Except String BumpAllocator :=
  a.dealloc ptr

/-- Entry accessor `is_present` (`arch/x86/mem/paging.rs`):
`self.0 & (1 << 0) > 0`. -/
def entry_is_present (e : Nat) : Bool := decide (0 < e &&& (1 <<< 0))

/-- Entry accessor `is_writable`: `self.0 & (1 << 1) > 0`. -/
def entry_is_writable (e : Nat) : Bool := decide (0 < e &&& (1 <<< 1))

/-- PDEntry::is_huge: `self.0 & (1 << 7) > 0`. -/
def entry_is_huge (e : Nat) : Bool := decide (0 < e &&& (1 <<< 7))

/-- Entry accessor `is_executable`: `self.0 & (1 << 63) == 0` (negated NX). -/
def entry_is_executable (e : Nat) : Bool := decide (e &&& (1 <<< 63) = 0)

/-- Entry accessor `addr`: `self.0 & 0x3fffffff_fffff000`. -/
def entry_addr (e : Nat) : Nat := e &&& 0x3ffffffffffff000

/-- AnyEntry from `arch/x86/mem/paging.rs` (x86 32-bit variant: no PML4E). -/
inductive AnyEntry where
  | PDPTEntry (e : Nat)
  | PDEntry (e : Nat)
  | PTEntry (e : Nat)
deriving DecidableEq, Repr

/-- The paging state read by the walker on x86 32-bit: the PDPT referenced
by CR3 (4 entries, indexed by `va >> 30`), and physical memory viewed as
page-directory and page-table contents, keyed by the table's physical base
address (the source converts each entry's `addr()` to a low-memory virtual
address and reads the table there). -/
structure Paging where
  pdpt : Nat → Nat
  pd_mem : Nat → Nat → Nat
  pt_mem : Nat → Nat → Nat

/-- locate_page_entry (`arch/x86/mem/paging.rs`, lines 410-461, x86 32-bit
branch): read the PDPT entry at `va >> 30`; if not present return `None`;
read the PD entry at `(va & 0x3fe0_0000) >> 21`; if its huge bit is set,
return it (this check precedes the present check in the source); if it is
not present return `None`; otherwise return the PT entry at
`(va & 0x001f_f000) >> 12`. -/
def locate_page_entry (m : Paging) (vaddr : Nat) : Option AnyEntry :=
  let pdpte := m.pdpt (vaddr >>> 30)
  if !entry_is_present pdpte then
    none
  else
    let pde := m.pd_mem (entry_addr pdpte) ((vaddr &&& 0x3fe00000) >>> 21)
    if entry_is_huge pde then
      some (AnyEntry.PDEntry pde)
    else if !entry_is_present pde then
      none
    else
      some (AnyEntry.PTEntry (m.pt_mem (entry_addr pde) ((vaddr &&& 0x001ff000) >>> 12)))

/-- PagePermissions from `mem/mod.rs`. -/
structure PagePermissions where
  accessible : Bool
  readable : Bool
  writable : Bool
  executable : Bool
deriving DecidableEq, Repr

/-- page_permissions (`arch/x86/export/mem.rs`, lines 155-185): absent entry
gives all-false permissions; a PDPT entry hits `unimplemented!()`; PD and PT
entries decode their bits. -/
def page_permissions (m : Paging) (vaddr : Nat) :
    Except String PagePermissions :=
  match locate_page_entry m vaddr with
  | none => Except.ok ⟨false, false, false, false⟩
  | some (AnyEntry.PDPTEntry _) => Except.error "not implemented"
  | some (AnyEntry.PDEntry pde) =>
      Except.ok ⟨entry_is_present pde, entry_is_present pde,
        entry_is_present pde && entry_is_writable pde,
        entry_is_present pde && entry_is_executable pde⟩
  | some (AnyEntry.PTEntry pte) =>
      Except.ok ⟨entry_is_present pte, entry_is_present pte,
        entry_is_present pte && entry_is_writable pte,
        entry_is_present pte && entry_is_executable pte⟩

/-- AccessAttempt from `mem/mod.rs`. -/
inductive AccessAttempt where
  | Read
  | Write
  | Execute
deriving DecidableEq, Repr

/-- The operation string chosen by `handle_pagefault`. -/
def op_str (access : AccessAttempt) : String :=
  match access with
  | AccessAttempt.Read => "Invalid read"
  | AccessAttempt.Write => "Invalid write"
  | AccessAttempt.Execute => "Invalid execution"

/-- The panic emitted by `handle_pagefault` through `panic_at_state`: the
operation string, the selected reason, and the captured machine state
(`Some(machine_state)` in the source). -/
structure PanicCall where
  op : String
  reason : String
  machine_state : Option Nat
deriving DecidableEq, Repr

/-- handle_pagefault (`mem/mod.rs`, lines 124-150): query
`page_permissions(fault_addr)`, select the reason string, then call
`panic_at_state(..., Some(machine_state), 0)`.  The function never returns
normally; its observable behaviour is the panic it raises, so the model
returns that panic (`Except.error` covers a panic raised inside
`page_permissions` itself). -/
def handle_pagefault (m : Paging) (fault_addr : Nat) (access : AccessAttempt)
    (machine_state : Nat) : Except String PanicCall :=
  match page_permissions m fault_addr with
  | Except.error e => Except.error e
  | Except.ok perms =>
      Except.ok
        { op := op_str access,
          reason :=
            if !perms.accessible then "page is not mapped"
            else if access = AccessAttempt.Write && !perms.writable then
              "page is read-only"
            else if access = AccessAttempt.Execute && !perms.executable then
              "page is non-executable"
            else "unknown error",
          machine_state := some machine_state }

/-- Modelled from the spec: the reason table of §4.8 (spec.md), read row by
row: not accessible ⇒ "page is not mapped"; accessible Write on
non-writable ⇒ "page is read-only"; accessible Execute on non-executable ⇒
"page is non-executable"; any other accessible case ⇒ "unknown error". -/
def spec_fault_reason (perms : PagePermissions) (access : AccessAttempt) :
    String :=
  if perms.accessible = false then "page is not mapped"
  else if access = AccessAttempt.Write ∧ perms.writable = false then
    "page is read-only"
  else if access = AccessAttempt.Execute ∧ perms.executable = false then
    "page is non-executable"
  else "unknown error"

/-- The state observed by the critical-region counter
(`arch/x86/export/sync.rs`): the `u32` depth `CRITICAL_REGION_DEPTH` and the
hardware interrupt-enable flag. -/
structure IrqState where
  depth : Nat
  irq_enabled : Bool
deriving DecidableEq, Repr

/-- push_critical_region (`arch/x86/export/sync.rs`, lines 16-22):
`fetch_add(1)` on the `u32` depth (wrapping), disabling interrupts if the
previous value was zero. -/
def push_critical_region (s : IrqState) : IrqState :=
  { depth := (s.depth + 1) % 2 ^ 32,
    irq_enabled := if s.depth = 0 then false else s.irq_enabled }

/-- pop_critical_region (`arch/x86/export/sync.rs`, lines 24-30):
`fetch_sub(1)` on the `u32` depth (wrapping), enabling interrupts if the
previous value was one. -/
def pop_critical_region (s : IrqState) : IrqState :=
  { depth := (s.depth + (2 ^ 32 - 1)) % 2 ^ 32,
    irq_enabled := if s.depth = 1 then true else s.irq_enabled }

/-- `k` successive calls to `push_critical_region`. -/
def iter_push (k : Nat) (s : IrqState) : IrqState :=
  push_critical_region^[k] s

/-- `k` successive calls to `pop_critical_region`. -/
def iter_pop (k : Nat) (s : IrqState) : IrqState :=
  pop_critical_region^[k] s

/-- Concrete paging state exercising the walker: every PDPT entry is
present (value 3, table at physical 0), and every PD entry has value 0x80:
huge bit set, present bit clear. -/
def cexPaging : Paging := ⟨fun _ => 3, fun _ _ => 0x80, fun _ _ => 0⟩

/-- Concrete paging state with a present, writable, non-huge PDE (value 3)
and PT entries of value 1 (present, read-only). -/
def wPaging : Paging := ⟨fun _ => 3, fun _ _ => 3, fun _ _ => 1⟩

/-- Intermediate entry read by the walker: the PDPT entry used for `va`. -/
def walk_pdpte (m : Paging) (va : Nat) : Nat := m.pdpt (va >>> 30)

/-- Intermediate entry read by the walker: the PD entry used for `va`. -/
def walk_pde (m : Paging) (va : Nat) : Nat :=
  m.pd_mem (entry_addr (walk_pdpte m va)) ((va &&& 0x3fe00000) >>> 21)

/-- Leaf entry read by the walker: the PT entry used for `va`. -/
def walk_pte (m : Paging) (va : Nat) : Nat :=
  m.pt_mem (entry_addr (walk_pde m va)) ((va &&& 0x001ff000) >>> 12)

theorem paddr_is_highmem_false_iff (pa : Nat) :
    paddr_is_highmem pa = false ↔ pa < LOWMEM_SIZE := by
  simp [paddr_is_highmem]

/-- C10: whenever `FrameAllocator::allocate` returns `None` — including the
early abort on a free high-memory frame with `can_highmem = false` — the
frame-descriptor array is exactly as it was before the call. -/
theorem allocate_failure_preserves_frames (fa : FrameAllocator) (n : Nat)
    (ch : Bool) (h : (fa.allocate n ch).1 = none) :
    (fa.allocate n ch).2 = fa := by
  unfold FrameAllocator.allocate at h ⊢
  cases hscan : alloc_scan n ch fa.frames 0 0 <;> simp_all

/-- Witness for `allocate_failure_preserves_frames`: a concrete failing
allocation (single non-free frame) leaves the descriptor array unchanged. -/
theorem allocate_failure_preserves_frames_witness :
    (FrameAllocator.allocate ⟨[FrameState.AllocatedRAM]⟩ 1 false).2
      = ⟨[FrameState.AllocatedRAM]⟩ :=
  allocate_failure_preserves_frames ⟨[FrameState.AllocatedRAM]⟩ 1 false (by decide)

/-- C4: evaluation of `AllocationBuilder::allocate` at the failing input —
zeroing requested, one frame, `into_vaddr` fails.  The frame is allocated,
then rolled back to FreeRAM, yet the call still returns `Some(paddr)`
(result `some 0`), handing the caller an address whose descriptor is free. -/
theorem builder_allocate_returns_freed_paddr :
    AllocationBuilder.allocate ⟨1, true, true⟩ (fun _ _ => none)
      ⟨[FrameState.FreeRAM]⟩
      = Except.ok ⟨some 0, ⟨[FrameState.FreeRAM]⟩, []⟩ := rfl

/-- C7 counterexample: a pointer obtained from the wired-up kernel heap
allocator can be deallocated twice; both deallocations return normally
(no panic) and leave the allocator state unchanged. -/
theorem kernel_dealloc_double_free_cex :
    KernelAllocatorWrapper.alloc BumpAllocator.new (fun _ => some 65536) 16 16
      = (65536, ⟨65552, false⟩) ∧
    (KernelAllocatorWrapper.dealloc ⟨65552, false⟩ 65536).bind
        (fun a1 => KernelAllocatorWrapper.dealloc a1 65536)
      = Except.ok ⟨65552, false⟩ :=
  ⟨by decide, rfl⟩

/-- C7 amended: `dealloc` of the wired-up bump allocator is a no-op with no
panic site; deallocating the same pointer twice returns normally both times
and leaves the allocator state unchanged (double-free is silent). -/
theorem kernel_dealloc_double_free_silent (a : BumpAllocator) (p : Nat) :
    (KernelAllocatorWrapper.dealloc a p).bind
      (fun a1 => KernelAllocatorWrapper.dealloc a1 p) = Except.ok a := rfl

/-- C3 counterexample: in `cexPaging` the PD entry on the translation path
of virtual address 0 is not present (value 0x80: huge bit set, present bit
clear), yet `locate_page_entry` does not return absent — it returns that
entry, because the source checks the huge bit before the present bit. -/
theorem locate_returns_nonpresent_pde :
    entry_is_present (walk_pde cexPaging 0) = false ∧
    locate_page_entry cexPaging 0 = some (AnyEntry.PDEntry 0x80) := by decide

/-- C3 amended: `locate_page_entry` returns absent when the PDPT entry is
not present, or when the PD entry is neither huge-flagged nor present; it
returns the PD entry whenever that entry's huge bit is set (even if the
entry is not present, since the huge check precedes the present check);
otherwise it returns the PT entry. -/
theorem locate_page_entry_characterization (m : Paging) (va : Nat) :
    (entry_is_present (walk_pdpte m va) = false →
      locate_page_entry m va = none) ∧
    (entry_is_present (walk_pdpte m va) = true →
      (entry_is_huge (walk_pde m va) = true →
        locate_page_entry m va = some (AnyEntry.PDEntry (walk_pde m va))) ∧
      (entry_is_huge (walk_pde m va) = false →
        entry_is_present (walk_pde m va) = false →
        locate_page_entry m va = none) ∧
      (entry_is_huge (walk_pde m va) = false →
        entry_is_present (walk_pde m va) = true →
        locate_page_entry m va = some (AnyEntry.PTEntry (walk_pte m va)))) := by
  unfold locate_page_entry walk_pte walk_pde walk_pdpte
  refine ⟨fun h1 => by simp [h1],
    fun h1 => ⟨fun h2 => by simp [h1, h2],
      fun h2 h3 => by simp [h1, h2, h3],
      fun h2 h3 => by simp [h1, h2, h3]⟩⟩

/-- Witness for `locate_page_entry_characterization`: on `wPaging` (present
PDPTE, present non-huge PDE, PT entry 1) the walker returns the PT entry. -/
theorem locate_page_entry_characterization_witness :
    locate_page_entry wPaging 0 = some (AnyEntry.PTEntry 1) :=
  ((locate_page_entry_characterization wPaging 0).2 (by decide)).2.2
    (by decide) (by decide)

theorem locate_page_entry_not_pdpte (m : Paging) (va : Nat) (e : Nat) :
    locate_page_entry m va ≠ some (AnyEntry.PDPTEntry e) := by
  simp only [locate_page_entry]
  split
  · simp
  · split
    · simp
    · split <;> simp

theorem page_permissions_never_panics (m : Paging) (va : Nat) :
    ∃ perms, page_permissions m va = Except.ok perms := by
  unfold page_permissions
  cases hloc : locate_page_entry m va with
  | none => exact ⟨_, rfl⟩
  | some e =>
    cases e with
    | PDPTEntry e2 => exact absurd hloc (locate_page_entry_not_pdpte m va e2)
    | PDEntry e2 => exact ⟨_, rfl⟩
    | PTEntry e2 => exact ⟨_, rfl⟩

/-- C5: `handle_pagefault` selects its reason string from
`page_permissions(va)` exactly per the spec's table (`spec_fault_reason`)
and always ends in the panic carrying the captured machine state — no fault
is serviced and returned from. -/
theorem handle_pagefault_reason_table (m : Paging) (fault_addr : Nat)
    (access : AccessAttempt) (ms : Nat) :
    ∃ perms, page_permissions m fault_addr = Except.ok perms ∧
      handle_pagefault m fault_addr access ms =
        Except.ok ⟨op_str access, spec_fault_reason perms access, some ms⟩ := by
  obtain ⟨perms, hp⟩ := page_permissions_never_panics m fault_addr
  refine ⟨perms, hp, ?_⟩
  unfold handle_pagefault
  rw [hp]
  obtain ⟨a, r, w, x⟩ := perms
  cases a <;> cases r <;> cases w <;> cases x <;> cases access <;> rfl

theorem alloc_scan_found_run_lowmem (n : Nat) (l : List FrameState) :
    ∀ i nr_free idx : Nat,
      nr_free ≤ i →
      (∀ j, i - nr_free ≤ j → j < i →
        paddr_is_highmem (frame_paddr j) = false) →
      alloc_scan n false l i nr_free = ScanOut.found idx →
      1 ≤ n ∧ ∀ j, idx ≤ j → j < idx + n →
        paddr_is_highmem (frame_paddr j) = false := by
  induction l with
  | nil =>
    intro i nr_free idx _ _ hscan
    simp [alloc_scan] at hscan
  | cons f rest ih =>
    intro i nr_free idx hle hrun hscan
    simp only [alloc_scan, Bool.not_false, Bool.and_true] at hscan
    by_cases hf : f = FrameState.FreeRAM
    · rw [if_pos hf] at hscan
      by_cases hhm : paddr_is_highmem (frame_paddr i) = true
      · rw [if_pos hhm] at hscan
        cases hscan
      · rw [Bool.not_eq_true] at hhm
        rw [if_neg (by simp [hhm])] at hscan
        by_cases hn : nr_free + 1 = n
        · rw [if_pos hn] at hscan
          cases hscan
          refine ⟨by omega, fun j hj1 hj2 => ?_⟩
          rcases Nat.lt_or_ge j i with hj | hj
          · exact hrun j (by omega) hj
          · have hji : j = i := by omega
            rw [hji]
            exact hhm
        · rw [if_neg hn] at hscan
          refine ih (i + 1) (nr_free + 1) idx (by omega)
            (fun j h1 h2 => ?_) hscan
          rcases Nat.lt_or_ge j i with hj | hj
          · exact hrun j (by omega) hj
          · have hji : j = i := by omega
            rw [hji]
            exact hhm
    · rw [if_neg hf] at hscan
      exact ih (i + 1) 0 idx (by omega)
        (fun j h1 h2 => absurd h2 (by omega)) hscan

/-- C1: with `can_highmem = false`, a successful `FrameAllocator::allocate`
never selects a candidate run containing a high-memory frame (the scan
aborts the whole call on such a frame instead of skipping it), so the
returned physical address — and every frame of the allocated run — lies
below the low-memory boundary. -/
theorem allocate_lowmem_when_highmem_forbidden (fa : FrameAllocator)
    (n pa : Nat) (fa2 : FrameAllocator)
    (h : fa.allocate n false = (some pa, fa2)) :
    pa < LOWMEM_SIZE ∧ ∀ j, j < n → pa + j * FRAME_SIZE < LOWMEM_SIZE := by
  unfold FrameAllocator.allocate at h
  cases hscan : alloc_scan n false fa.frames 0 0 <;> simp_all
  case found idx =>
    obtain ⟨h1, h2⟩ := h
    obtain ⟨hn1, hrun⟩ := alloc_scan_found_run_lowmem n fa.frames 0 0 idx
      (Nat.le_refl 0) (fun j hj1 hj2 => absurd hj2 (by omega)) hscan
    constructor
    · have hh := hrun idx (Nat.le_refl idx) (by omega)
      rw [paddr_is_highmem_false_iff] at hh
      rw [← h1]
      exact hh
    · intro j hj
      have hh := hrun (idx + j) (by omega) (by omega)
      rw [paddr_is_highmem_false_iff] at hh
      rw [← h1]
      have hexp : frame_paddr idx + j * FRAME_SIZE = frame_paddr (idx + j) := by
        unfold frame_paddr
        ring
      rw [hexp]
      exact hh

/-- Witness for `allocate_lowmem_when_highmem_forbidden`: a concrete
single-frame allocation with high memory forbidden returns physical
address 0, which lies below the low-memory boundary. -/
theorem allocate_lowmem_when_highmem_forbidden_witness :
    0 < LOWMEM_SIZE ∧ 0 + 0 * FRAME_SIZE < LOWMEM_SIZE := by
  have h := allocate_lowmem_when_highmem_forbidden ⟨[FrameState.FreeRAM]⟩ 1 0
    ⟨[FrameState.AllocatedRAM]⟩ (by decide)
  exact ⟨h.1, h.2 0 (by decide)⟩

/-- C2 counterexample: an allocator whose descriptors at indices
0x400..0x403 (physical 0x00400000..0x00403fff) are all AllocatedRAM;
`free(0x00400000, 4)` panics with "unimplemented" — the source asserts
`nr_frames == 1` — instead of transitioning the four descriptors back to
FreeRAM as the claim states. -/
theorem free_four_frames_panics :
    (List.replicate 1028 FrameState.AllocatedRAM).getD 0x400
        FrameState.Unusable = FrameState.AllocatedRAM ∧
    (List.replicate 1028 FrameState.AllocatedRAM).getD 0x401
        FrameState.Unusable = FrameState.AllocatedRAM ∧
    (List.replicate 1028 FrameState.AllocatedRAM).getD 0x402
        FrameState.Unusable = FrameState.AllocatedRAM ∧
    (List.replicate 1028 FrameState.AllocatedRAM).getD 0x403
        FrameState.Unusable = FrameState.AllocatedRAM ∧
    FrameAllocator.free ⟨List.replicate 1028 FrameState.AllocatedRAM⟩
        0x00400000 4 = Except.error "unimplemented" :=
  ⟨by decide, by decide, by decide, by decide, rfl⟩

/-- C2 amended: `free` supports only single-frame frees: any call with
`nr_frames ≠ 1` panics "unimplemented"; a call with `nr_frames = 1` whose
descriptor is AllocatedRAM (resp. ClaimedReserved) transitions that single
descriptor to FreeRAM (resp. UnclaimedReserved). -/
theorem free_single_frame (fa : FrameAllocator) (pa : Nat) :
    (∀ n, n ≠ 1 → fa.free pa n = Except.error "unimplemented") ∧
    (index_from_paddr pa < fa.frames.length →
      (fa.frames.getD (index_from_paddr pa) FrameState.Unusable
          = FrameState.AllocatedRAM →
        fa.free pa 1 = Except.ok
          ⟨fa.frames.set (index_from_paddr pa) FrameState.FreeRAM⟩) ∧
      (fa.frames.getD (index_from_paddr pa) FrameState.Unusable
          = FrameState.ClaimedReserved →
        fa.free pa 1 = Except.ok
          ⟨fa.frames.set (index_from_paddr pa)
            FrameState.UnclaimedReserved⟩)) := by
  refine ⟨fun n hn => ?_, fun hlt => ⟨fun hst => ?_, fun hst => ?_⟩⟩
  · simp only [FrameAllocator.free, if_pos hn]
  · simp only [FrameAllocator.free, if_neg (by omega : ¬(1:Nat) ≠ 1),
      if_neg (Nat.not_le.mpr hlt), hst]
  · simp only [FrameAllocator.free, if_neg (by omega : ¬(1:Nat) ≠ 1),
      if_neg (Nat.not_le.mpr hlt), hst]

/-- Witness for `free_single_frame`: freeing a single AllocatedRAM frame
transitions its descriptor to FreeRAM. -/
theorem free_single_frame_witness :
    FrameAllocator.free ⟨[FrameState.AllocatedRAM]⟩ 0 1
      = Except.ok ⟨[FrameState.FreeRAM]⟩ :=
  ((free_single_frame ⟨[FrameState.AllocatedRAM]⟩ 0).2 (by decide)).1 (by decide)

theorem push_at_depth_false (d : Nat) (hlt : d + 1 < 2 ^ 32) :
    push_critical_region ⟨d, false⟩ = ⟨d + 1, false⟩ := by
  unfold push_critical_region
  rw [Nat.mod_eq_of_lt hlt, ite_self]

theorem pop_at_depth (d : Nat) (h2 : 2 ≤ d) (hlt : d < 2 ^ 32) :
    pop_critical_region ⟨d, false⟩ = ⟨d - 1, false⟩ := by
  unfold pop_critical_region
  have p32 : (2 : Nat) ^ 32 = 4294967296 := by norm_num
  have hmod : (d + (2 ^ 32 - 1)) % 2 ^ 32 = d - 1 := by
    simp only [p32] at hlt ⊢
    omega
  have hne : ¬d = 1 := by omega
  rw [hmod, if_neg hne]

theorem iter_push_succ (k : Nat) (s : IrqState) :
    iter_push (k + 1) s = iter_push k (push_critical_region s) := by
  unfold iter_push
  rw [Function.iterate_succ_apply]

theorem iter_pop_succ (k : Nat) (s : IrqState) :
    iter_pop (k + 1) s = iter_pop k (pop_critical_region s) := by
  unfold iter_pop
  rw [Function.iterate_succ_apply]

theorem iter_push_from (i d : Nat) (hd : d + i < 2 ^ 32) :
    iter_push i ⟨d, false⟩ = ⟨d + i, false⟩ := by
  induction i generalizing d with
  | zero => rfl
  | succ i2 ih =>
    rw [iter_push_succ, push_at_depth_false d (by omega)]
    rw [ih (d + 1) (by omega)]
    have hadd : d + 1 + i2 = d + (i2 + 1) := by omega
    rw [hadd]

theorem iter_pop_from (j d : Nat) (h2 : 2 ≤ d) (hlt : d < 2 ^ 32)
    (hj : j < d) : iter_pop j ⟨d, false⟩ = ⟨d - j, false⟩ := by
  induction j generalizing d with
  | zero => rfl
  | succ j2 ih =>
    rw [iter_pop_succ, pop_at_depth d h2 hlt]
    cases j2 with
    | zero => rfl
    | succ j3 =>
      rw [ih (d - 1) (by omega) (by omega) (by omega)]
      have hsub : d - 1 - (j3 + 1) = d - (j3 + 1 + 1) := by omega
      rw [hsub]

theorem iter_pop_add (a b : Nat) (s : IrqState) :
    iter_pop (a + b) s = iter_pop b (iter_pop a s) := by
  unfold iter_pop
  rw [Nat.add_comm a b, Function.iterate_add_apply]

/-- C6 counterexample: with interrupts disabled prior to the first push
while the depth counter is 0 (the state the boot sequence is actually in
before its initial `push_critical_region`), one push followed by one pop
leaves interrupts enabled — not in their prior (disabled) state. -/
theorem critical_region_prior_state_cex :
    iter_pop 1 (iter_push 1 ⟨0, false⟩) ≠ ⟨0, false⟩ ∧
    (iter_pop 1 (iter_push 1 ⟨0, false⟩)).irq_enabled = true := by
  constructor <;> decide

/-- C6 amended: starting from the steady state — depth 0 with interrupts
enabled — and for `1 ≤ k < 2^32` (the depth counter is a wrapping u32),
`k` pushes followed by `k` pops restore exactly the initial state; at every
intermediate point interrupts are disabled, so only the outermost push
disables and only the outermost pop re-enables. -/
theorem critical_region_nesting (k : Nat) (h1 : 1 ≤ k) (h2 : k < 2 ^ 32) :
    iter_pop k (iter_push k ⟨0, true⟩) = ⟨0, true⟩ ∧
    (∀ i, 1 ≤ i → i ≤ k → (iter_push i ⟨0, true⟩).irq_enabled = false) ∧
    (∀ j, j < k → (iter_pop j (iter_push k ⟨0, true⟩)).irq_enabled = false) := by
  have hpush : ∀ i, 1 ≤ i → i ≤ k → iter_push i ⟨0, true⟩ = ⟨i, false⟩ := by
    intro i hi1 hik
    cases i with
    | zero => omega
    | succ i2 =>
      rw [iter_push_succ]
      have hp : push_critical_region ⟨0, true⟩ = ⟨1, false⟩ := by
        unfold push_critical_region
        rw [Nat.mod_eq_of_lt (by norm_num), if_pos rfl]
      rw [hp, iter_push_from i2 1 (by omega)]
      have hadd : 1 + i2 = i2 + 1 := by omega
      rw [hadd]
  have hk := hpush k h1 (Nat.le_refl k)
  have hpop1 : pop_critical_region ⟨1, false⟩ = ⟨0, true⟩ := by
    unfold pop_critical_region
    have hmod : (1 + (2 ^ 32 - 1)) % 2 ^ 32 = 0 := by norm_num
    rw [hmod, if_pos rfl]
  have hfirst : iter_pop k (iter_push k ⟨0, true⟩) = ⟨0, true⟩ := by
    rw [hk]
    cases k with
    | zero => omega
    | succ k2 =>
      cases k2 with
      | zero => decide
      | succ k3 =>
        rw [iter_pop_add (k3 + 1) 1 ⟨k3 + 1 + 1, false⟩]
        rw [iter_pop_from (k3 + 1) (k3 + 1 + 1) (by omega) h2 (by omega)]
        have hsub : k3 + 1 + 1 - (k3 + 1) = 1 := by omega
        rw [hsub]
        decide
  refine ⟨hfirst, fun i hi1 hik => by rw [hpush i hi1 hik], fun j hj => ?_⟩
  rw [hk]
  cases j with
  | zero => rfl
  | succ j2 =>
    rw [iter_pop_from (j2 + 1) k (by omega) h2 hj]

/-- Witness for `critical_region_nesting`: two pushes followed by two pops
restore depth 0 with interrupts enabled. -/
theorem critical_region_nesting_witness :
    iter_pop 2 (iter_push 2 ⟨0, true⟩) = ⟨0, true⟩ :=
  (critical_region_nesting 2 (by norm_num) (by norm_num)).1

/-- C8 counterexample: freeing high-memory pages whose bitmap bits are
already clear returns normally (first conjunct: bit 0 was already clear),
and freeing a range that extends past the window's end bit silently
truncates instead of panicking (second conjunct: a 2-page free starting at
the window's last page).  The claim says both cases panic; neither does. -/
theorem highmem_free_no_panic_cex :
    HighmemAllocator.free ⟨0xf8000000, 2, [false, true]⟩ 0xf8000000 2
      = Except.ok ⟨0xf8000000, 2, [false, false]⟩ ∧
    HighmemAllocator.free ⟨0xf8000000, 2, [true, true]⟩ 0xf8001000 2
      = Except.ok ⟨0xf8000000, 2, [true, false]⟩ :=
  ⟨rfl, rfl⟩

theorem clear_from_length (l : List Bool) (n : Nat) :
    (clear_from l n).length = l.length := by
  induction l generalizing n with
  | nil => cases n <;> rfl
  | cons b rest ih =>
    cases n with
    | zero => rfl
    | succ n2 => simp only [clear_from, List.length_cons, ih]

theorem clear_from_getD (l : List Bool) (n i : Nat) :
    (clear_from l n).getD i false = if i < n then false else l.getD i false := by
  induction l generalizing n i with
  | nil => cases n <;> simp [clear_from]
  | cons b rest ih =>
    cases n with
    | zero => simp [clear_from]
    | succ n2 =>
      cases i with
      | zero => simp [clear_from]
      | succ i2 =>
        simp only [clear_from, List.getD_cons_succ, ih, Nat.add_lt_add_iff_right]

theorem clear_range_zero (l : List Bool) (n : Nat) :
    clear_range l 0 n = clear_from l n := rfl

theorem clear_range_cons (b : Bool) (rest : List Bool) (idx n : Nat) :
    clear_range (b :: rest) (idx + 1) n = b :: clear_range rest idx n := rfl

theorem clear_range_nil (idx n : Nat) : clear_range [] idx n = [] := by
  simp [clear_range, clear_from]

theorem clear_range_length (l : List Bool) (idx n : Nat) :
    (clear_range l idx n).length = l.length := by
  induction idx generalizing l with
  | zero => rw [clear_range_zero, clear_from_length]
  | succ idx2 ih =>
    cases l with
    | nil => rw [clear_range_nil]
    | cons b rest =>
      rw [clear_range_cons]
      simp only [List.length_cons, ih]

theorem clear_range_getD (l : List Bool) (idx n i : Nat) :
    (clear_range l idx n).getD i false =
      if idx ≤ i ∧ i < idx + n then false else l.getD i false := by
  induction idx generalizing l i with
  | zero =>
    rw [clear_range_zero, clear_from_getD]
    simp
  | succ idx2 ih =>
    cases l with
    | nil =>
      rw [clear_range_nil]
      simp [List.getD]
    | cons b rest =>
      rw [clear_range_cons]
      cases i with
      | zero => simp
      | succ i2 =>
        simp only [List.getD_cons_succ, ih]
        by_cases hc : idx2 ≤ i2 ∧ i2 < idx2 + n
        · rw [if_pos hc, if_pos (by omega)]
        · rw [if_neg hc, if_neg (by omega)]

/-- C8 amended: when the start address is page-aligned and lies inside
`[start, start + nr_pages·4096]` — the only conditions the code's
assertions check — `free(va, n_pages)` returns normally and clears the
bits at indices `[idx, idx + n)` (truncated at the window's end), whatever
their prior values: already-clear bits and ranges extending past the
window's end are silently accepted. -/
theorem highmem_free_clears_bits (h : HighmemAllocator) (va n : Nat)
    (ha : va &&& 0xfff = 0) (hlo : h.start ≤ va)
    (hhi : va ≤ h.start + (h.nr_pages <<< 12)) :
    HighmemAllocator.free h va n = Except.ok
      { h with allocated := clear_range h.allocated ((va - h.start) >>> 12) n } ∧
    (clear_range h.allocated ((va - h.start) >>> 12) n).length
      = h.allocated.length ∧
    ∀ i, (clear_range h.allocated ((va - h.start) >>> 12) n).getD i false =
      if (va - h.start) >>> 12 ≤ i ∧ i < (va - h.start) >>> 12 + n then false
      else h.allocated.getD i false := by
  refine ⟨?_, clear_range_length h.allocated _ n,
    fun i => clear_range_getD h.allocated _ n i⟩
  unfold HighmemAllocator.free HighmemAllocator.vaddr_to_index
  rw [if_neg (fun hc => hc ha), if_neg (not_not_intro ⟨hlo, hhi⟩)]

/-- Witness for `highmem_free_clears_bits`: freeing both pages of a
two-page window clears both bits. -/
theorem highmem_free_clears_bits_witness :
    HighmemAllocator.free ⟨0xf8000000, 2, [true, true]⟩ 0xf8000000 2
      = Except.ok ⟨0xf8000000, 2, [false, false]⟩ :=
  (highmem_free_clears_bits ⟨0xf8000000, 2, [true, true]⟩ 0xf8000000 2
    (by decide) (by decide) (by decide)).1

theorem align_up_16_mod (x : Nat) : align_up x 16 % 16 = 0 := by
  have h1 : align_up x 16 % 16 = align_up x 16 &&& (2 ^ 4 - 1) := by
    rw [Nat.and_pow_two_sub_one_eq_mod]
  rw [h1]
  unfold align_up
  rw [Nat.and_assoc]
  have h2 : (2 ^ 32 - 16) &&& (2 ^ 4 - 1) = 0 := by decide
  rw [h2, Nat.and_zero]

theorem mod_4096_to_16 (p : Nat) (hp : p % 4096 = 0) : p % 16 = 0 := by
  have h16 : (16 : Nat) ∣ 4096 := by norm_num
  calc p % 16 = p % 4096 % 16 := (Nat.mod_mod_of_dvd p h16).symm
    _ = 0 := by rw [hp]

theorem bump_alloc_aligned (a : BumpAllocator) (new_pages : Nat → Option Nat)
    (bsize : Nat) (hnp : ∀ n p, new_pages n = some p → p % 4096 = 0)
    (p : Nat) (a2 : BumpAllocator)
    (h : a.alloc new_pages bsize = some (p, a2)) : p % 16 = 0 := by
  simp only [BumpAllocator.alloc] at h
  split at h
  · cases hb : new_pages (align_up bsize 4096 >>> 12) with
    | none => rw [hb] at h; simp at h
    | some b =>
      rw [hb] at h
      simp only [Option.some.injEq, Prod.mk.injEq] at h
      obtain ⟨hb1, -⟩ := h
      rw [← hb1]
      exact mod_4096_to_16 b (hnp _ b hb)
  · simp only [Option.some.injEq, Prod.mk.injEq] at h
    obtain ⟨hb1, -⟩ := h
    rw [← hb1]
    exact align_up_16_mod a.heap_top

/-- C9: with the backend returning page-aligned virtual addresses (as
`map_lowmem` does), every pointer handed out by the kernel heap allocator
for a requested alignment `a ≤ 16` is 16-byte aligned — hence aligned to
every divisor of 16, which covers all supported power-of-two alignments —
and every request with alignment above 16 is rejected with a null pointer
(0), leaving the allocator untouched. -/
theorem kernel_alloc_alignment (a : BumpAllocator)
    (new_pages : Nat → Option Nat) (size align : Nat)
    (hnp : ∀ n p, new_pages n = some p → p % 4096 = 0) :
    (align ≤ 16 →
      ∀ p a2, KernelAllocatorWrapper.alloc a new_pages size align = (p, a2) →
        p % 16 = 0 ∧ ∀ d, d ∣ 16 → p % d = 0) ∧
    (16 < align → KernelAllocatorWrapper.alloc a new_pages size align = (0, a)) := by
  constructor
  · intro hal p a2 hres
    have h16 : p % 16 = 0 := by
      unfold KernelAllocatorWrapper.alloc at hres
      rw [if_neg (Nat.not_lt.mpr hal)] at hres
      cases hb : a.alloc new_pages size with
      | none =>
        rw [hb] at hres
        simp only [Prod.mk.injEq] at hres
        obtain ⟨hp0, -⟩ := hres
        omega
      | some pa1 =>
        obtain ⟨p3, a3⟩ := pa1
        rw [hb] at hres
        simp only [Prod.mk.injEq] at hres
        obtain ⟨hp3, -⟩ := hres
        rw [← hp3]
        exact bump_alloc_aligned a new_pages size hnp p3 a3 hb
    refine ⟨h16, fun d hd => ?_⟩
    have hdp : d ∣ p := dvd_trans hd (Nat.dvd_of_mod_eq_zero h16)
    have hdpos : 0 < d := Nat.pos_of_dvd_of_pos hd (by norm_num)
    omega
  · intro hal
    unfold KernelAllocatorWrapper.alloc
    rw [if_pos hal]

/-- Witness for `kernel_alloc_alignment`: a concrete allocation of 32 bytes
with alignment 8 returns the page-aligned pointer 8192, and 8192 is a
multiple of 16. -/
theorem kernel_alloc_alignment_witness :
    KernelAllocatorWrapper.alloc ⟨4096, false⟩ (fun _ => some 8192) 32 8
      = (8192, ⟨8224, false⟩) ∧ (8192 : Nat) % 16 = 0 := by
  have h := kernel_alloc_alignment ⟨4096, false⟩ (fun _ => some 8192) 32 8
    (fun n p hp => by cases hp; decide)
  exact ⟨by decide, (h.1 (by norm_num) 8192 ⟨8224, false⟩ (by decide)).1⟩
